import Mathlib

/-!
# STM32F407VE gas-detection node: shallow embedding of `Code/fun.c`

The C functions of `fun.c` are embedded as Lean functions over an explicit
system state `Sys` (the two process-wide variables of the file, the log of
the HAL calls made so far, and one counter per HAL input source) and an
environment `Env` that fixes what the hardware answers to every HAL input
call.

Conventions of the embedding:

* `float` values are rationals and float arithmetic is exact; the decimal
  literals of the source (`9.03f`, `3.3f`, `-99.9f`) denote themselves.
  A float division by zero has no rational value: `MQ2_Calibrate` returns
  `none` there.
* `uint8_t`, `uint16_t`, `uint32_t` values are naturals, reduced
  `% 2^w` at every place where the source stores into such a type.
* every HAL output call appends one `Event` to `Sys.trace`, in program
  order; every HAL input call also appends its event and consumes the
  next answer of the environment.
-/

namespace Fun

/-! ## HAL types (from the HAL headers, which `fun.c` only includes) -/

/-- Return status of the HAL calls, `HAL_StatusTypeDef` of the STM32 HAL. -/
inductive HAL_StatusTypeDef
  | HAL_OK
  | HAL_ERROR
  | HAL_BUSY
  | HAL_TIMEOUT
  deriving DecidableEq, Repr

/-- Level of a GPIO pin, `GPIO_PinState` of the STM32 HAL
(`GPIO_PIN_RESET = 0`, `GPIO_PIN_SET = 1`). -/
inductive GPIO_PinState
  | GPIO_PIN_RESET
  | GPIO_PIN_SET
  deriving DecidableEq, Repr

/-- Numeric value of a pin level, as seen after the conversion to `uint8_t`. -/
def GPIO_PinState.toNat : GPIO_PinState → Nat
  | .GPIO_PIN_RESET => 0
  | .GPIO_PIN_SET => 1

/-- The two output pins that `fun.c` writes: PB0 (buzzer) and PB2 (LED). -/
inductive OutPin
  | PB0
  | PB2
  deriving DecidableEq, Repr

/-- The `printf` calls of `fun.c`, one constructor per format string, with
the arguments passed to it. -/
inductive Msg
  /-- Line 37: `"MQ2 preheating... Wait 2-3 mins!"`. -/
  | preheat
  /-- Line 93. -/
  | calHeader
  /-- Line 94. -/
  | calAdc (adc_value : Nat)
  /-- Line 95. -/
  | calMultimeter (multimeter_voltage : ℚ)
  /-- Line 96. -/
  | calRaw (raw_voltage : ℚ)
  /-- Line 97. -/
  | calFactor (factor : ℚ)
  /-- Line 129. -/
  | sendFailed (i2c_status : Option HAL_StatusTypeDef)
  /-- Line 145. -/
  | readFailed (i2c_status : Option HAL_StatusTypeDef)
  /-- Lines 192, 198, 214, 220: `ledOn` selects the `LED_ON `/`LED_OFF` label,
  `gas` selects `GAS! ... BEEP:ON` against `NORMAL. ... BEEP:OFF`. -/
  | status (ledOn gas : Bool) (mq2_adc : Nat) (mq2_volt : ℚ) (mq2_do : Nat) (temp humi : ℚ)
  deriving DecidableEq, Repr

/-- One HAL (or `printf`) call, as recorded in the trace. -/
inductive Event
  /-- `HAL_GPIO_WritePin(GPIOB, pin, level)`. -/
  | gpioWrite (pin : OutPin) (level : GPIO_PinState)
  /-- `HAL_GPIO_ReadPin(GPIOA, GPIO_PIN_1)`. -/
  | gpioRead
  /-- `HAL_Delay(ms)`. -/
  | delay (ms : Nat)
  /-- `printf(...)`. -/
  | printf (m : Msg)
  /-- `HAL_ADC_Start(&hadc1)`. -/
  | adcStart
  /-- `HAL_ADC_PollForConversion(&hadc1, timeout)`. -/
  | adcPoll (timeout : Nat)
  /-- `HAL_ADC_GetValue(&hadc1)`. -/
  | adcGetValue
  /-- `HAL_ADC_Stop(&hadc1)`. -/
  | adcStop
  /-- `HAL_I2C_Master_Transmit(&hi2c1, addr, data, size, timeout)`. -/
  | i2cTransmit (addr : Nat) (data : List Nat) (size timeout : Nat)
  /-- `HAL_I2C_Master_Receive(&hi2c1, addr, rx_buf, size, timeout)`. -/
  | i2cReceive (addr size timeout : Nat)
  deriving DecidableEq, Repr

/-! ## State and environment -/

/-- The answers of the hardware: the `k`-th call of each HAL input function
gets the `k`-th entry of the corresponding stream. -/
structure Env where
  /-- Status of the `k`-th `HAL_ADC_PollForConversion`. -/
  adcPoll : Nat → HAL_StatusTypeDef
  /-- Content of the ADC data register after the `k`-th poll, as read by
  `HAL_ADC_GetValue` (a `uint32_t`). -/
  adcValue : Nat → Nat
  /-- Level of PA1 at the `k`-th `HAL_GPIO_ReadPin`. -/
  doPin : Nat → GPIO_PinState
  /-- Status of the `k`-th `HAL_I2C_Master_Transmit`. -/
  i2cTx : Nat → HAL_StatusTypeDef
  /-- Status of the `k`-th `HAL_I2C_Master_Receive`. -/
  i2cRx : Nat → HAL_StatusTypeDef
  /-- Content of the 6-byte receive buffer after the `k`-th
  `HAL_I2C_Master_Receive`. -/
  i2cRxData : Nat → Fin 6 → Fin 256

/-- Process-wide state of `fun.c` together with the interaction history. -/
structure Sys where
  /-- Line 10: `static float g_scale_factor`. -/
  g_scale_factor : ℚ
  /-- Line 166: `static uint8_t init_flag` of `Gas_Detection_System`. -/
  init_flag : Nat
  /-- HAL calls made so far, oldest first. -/
  trace : List Event
  /-- Number of `HAL_ADC_PollForConversion` calls made so far. -/
  nAdc : Nat
  /-- Number of `HAL_GPIO_ReadPin` calls made so far. -/
  nDo : Nat
  /-- Number of `HAL_I2C_Master_Transmit` calls made so far. -/
  nTx : Nat
  /-- Number of `HAL_I2C_Master_Receive` calls made so far. -/
  nRx : Nat

/-- State at program start: the initialisers of lines 10 and 166, nothing
called yet. -/
def Sys.initial : Sys :=
  { g_scale_factor := 903 / 100, init_flag := 0, trace := [], nAdc := 0, nDo := 0, nTx := 0,
    nRx := 0 }

/-- Record one call in the trace. -/
def emit (e : Event) (s : Sys) : Sys :=
  { s with trace := s.trace ++ [e] }

/-! ## HAL primitives -/

def HAL_GPIO_WritePin (pin : OutPin) (level : GPIO_PinState) (s : Sys) : Sys :=
  emit (.gpioWrite pin level) s

def HAL_GPIO_ReadPin (env : Env) (s : Sys) : GPIO_PinState × Sys :=
  (env.doPin s.nDo, { emit .gpioRead s with nDo := s.nDo + 1 })

def HAL_Delay (ms : Nat) (s : Sys) : Sys :=
  emit (.delay ms) s

def printf (m : Msg) (s : Sys) : Sys :=
  emit (.printf m) s

def HAL_ADC_Start (s : Sys) : Sys :=
  emit .adcStart s

def HAL_ADC_Stop (s : Sys) : Sys :=
  emit .adcStop s

def HAL_ADC_PollForConversion (env : Env) (timeout : Nat) (s : Sys) : HAL_StatusTypeDef × Sys :=
  (env.adcPoll s.nAdc, { emit (.adcPoll timeout) s with nAdc := s.nAdc + 1 })

/-- Reads the data register left by the latest poll; the result is a
`uint32_t`. -/
def HAL_ADC_GetValue (env : Env) (s : Sys) : Nat × Sys :=
  (env.adcValue (s.nAdc - 1) % 4294967296, emit .adcGetValue s)

def HAL_I2C_Master_Transmit (env : Env) (addr : Nat) (data : List Nat) (size timeout : Nat)
    (s : Sys) : HAL_StatusTypeDef × Sys :=
  (env.i2cTx s.nTx, { emit (.i2cTransmit addr data size timeout) s with nTx := s.nTx + 1 })

/-- Returns the status and the content of the receive buffer after the call. -/
def HAL_I2C_Master_Receive (env : Env) (addr size timeout : Nat) (s : Sys) :
    HAL_StatusTypeDef × (Fin 6 → Fin 256) × Sys :=
  (env.i2cRx s.nRx, env.i2cRxData s.nRx,
    { emit (.i2cReceive addr size timeout) s with nRx := s.nRx + 1 })

/-! ## `fun.c` -/

/-- Lines 13-16. -/
def Buzzer_On (s : Sys) : Sys :=
  HAL_GPIO_WritePin .PB0 .GPIO_PIN_RESET s

/-- Lines 18-21. -/
def Buzzer_Off (s : Sys) : Sys :=
  HAL_GPIO_WritePin .PB0 .GPIO_PIN_SET s

/-- Lines 24-27. -/
def LED_On (s : Sys) : Sys :=
  HAL_GPIO_WritePin .PB2 .GPIO_PIN_RESET s

/-- Lines 29-32. -/
def LED_Off (s : Sys) : Sys :=
  HAL_GPIO_WritePin .PB2 .GPIO_PIN_SET s

/-- Lines 35-39. -/
def MQ2_Preheat_Tips (s : Sys) : Sys :=
  HAL_Delay 1000 (printf .preheat s)

/-- Lines 49-56, the `for` loop of `MQ2_Read_AO_Value` with `n` iterations
left (`n = sample_cnt - i`); `adc_val` is the `uint16_t` accumulator. -/
def MQ2_Read_AO_Value.loop (env : Env) : Nat → Nat → Sys → Nat × Sys
  | 0, adc_val, s => (adc_val, s)
  | n + 1, adc_val, s =>
    let r := HAL_ADC_PollForConversion env 100 s
    if r.1 = .HAL_OK then
      let v := HAL_ADC_GetValue env r.2
      MQ2_Read_AO_Value.loop env n ((adc_val + v.1) % 4294967296 % 65536) (HAL_Delay 10 v.2)
    else
      MQ2_Read_AO_Value.loop env n adc_val (HAL_Delay 10 r.2)

/-- Lines 42-60. -/
def MQ2_Read_AO_Value (env : Env) (s : Sys) : Nat × Sys :=
  let adc_val := 0
  let sample_cnt := 10
  let s := HAL_ADC_Start s
  let r := MQ2_Read_AO_Value.loop env sample_cnt adc_val s
  let s := HAL_ADC_Stop r.2
  (r.1 / sample_cnt % 65536, s)

/-- Lines 63-76. Reads `g_scale_factor`, changes nothing. -/
def MQ2_Convert_Voltage (s : Sys) (adc_val : Nat) : ℚ :=
  let voltage : ℚ := (adc_val : ℚ) / 4095 * (33 / 10)
  let voltage := voltage * s.g_scale_factor
  let voltage := if voltage < 0 then 0 else voltage
  let voltage := if voltage > 5 then 5 else voltage
  voltage

/-- Lines 79-82. -/
def MQ2_Read_DO_State (env : Env) (s : Sys) : Nat × Sys :=
  let r := HAL_GPIO_ReadPin env s
  (r.1.toNat, r.2)

/-- Lines 85-98. `none` when line 91 divides by zero (`adc_value = 0`): the
quotient is then an infinity or a NaN, not a number. -/
def MQ2_Calibrate (s : Sys) (multimeter_voltage : ℚ) (adc_value : Nat) : Option Sys :=
  let raw_voltage : ℚ := (adc_value : ℚ) / 4095 * (33 / 10)
  if raw_voltage = 0 then none
  else
    let s := { s with g_scale_factor := multimeter_voltage / raw_voltage }
    let s := printf .calHeader s
    let s := printf (.calAdc adc_value) s
    let s := printf (.calMultimeter multimeter_voltage) s
    let s := printf (.calRaw raw_voltage) s
    let s := printf (.calFactor s.g_scale_factor) s
    some s

/-- Line 101: `SHT30_I2C_ADDR`, expanded in argument position. -/
def SHT30_I2C_ADDR : Nat := 0x44 <<< 1

/-- Line 102. -/
def SHT30_MEAS_CMD : Nat := 0x2C06

/-- Line 103. -/
def I2C_TIMEOUT_MS : Nat := 500

/-- Outcome of `SHT30_Read_Temp_Humi`: the return code and the final values
of the two output parameters `*temp` and `*humi`. -/
structure SHT30_Result where
  ret : Nat
  temp : ℚ
  humi : ℚ
  deriving DecidableEq, Repr

/-- Lines 121-126, the `while(retry_cnt--)` loop of the send phase, entered
with the given `retry_cnt` and `i2c_status` (`none` before the first
assignment to the uninitialised local). -/
def SHT30_Read_Temp_Humi.sendLoop (env : Env) (tx_buf : List Nat) :
    Nat → Option HAL_StatusTypeDef → Sys → Option HAL_StatusTypeDef × Sys
  | 0, i2c_status, s => (i2c_status, s)
  | retry_cnt + 1, _, s =>
    let r := HAL_I2C_Master_Transmit env SHT30_I2C_ADDR tx_buf 2 I2C_TIMEOUT_MS s
    if r.1 = .HAL_OK then (some r.1, r.2)
    else SHT30_Read_Temp_Humi.sendLoop env tx_buf retry_cnt (some r.1) (HAL_Delay 50 r.2)

/-- Lines 137-142, the `while(retry_cnt--)` loop of the receive phase, which
also carries the content of `rx_buf`. -/
def SHT30_Read_Temp_Humi.recvLoop (env : Env) :
    Nat → Option HAL_StatusTypeDef → (Fin 6 → Fin 256) → Sys →
      Option HAL_StatusTypeDef × (Fin 6 → Fin 256) × Sys
  | 0, i2c_status, rx_buf, s => (i2c_status, rx_buf, s)
  | retry_cnt + 1, _, _, s =>
    let r := HAL_I2C_Master_Receive env SHT30_I2C_ADDR 6 I2C_TIMEOUT_MS s
    if r.1 = .HAL_OK then (some r.1, r.2.1, r.2.2)
    else SHT30_Read_Temp_Humi.recvLoop env retry_cnt (some r.1) r.2.1 (HAL_Delay 50 r.2.2)

/-- Lines 150-158: decoding of the received buffer and the two range
guards. -/
def SHT30_Read_Temp_Humi.decode (rx_buf : Fin 6 → Fin 256) : ℚ × ℚ :=
  let temp_raw : Nat := (((rx_buf 0).val <<< 8) ||| (rx_buf 1).val) % 65536
  let humi_raw : Nat := (((rx_buf 3).val <<< 8) ||| (rx_buf 4).val) % 65536
  let temp : ℚ := -45 + 175 * (temp_raw : ℚ) / 65535
  let humi : ℚ := 100 * (humi_raw : ℚ) / 65535
  let temp := if temp < -45 ∨ temp > 125 then -999 / 10 else temp
  let humi := if humi < 0 ∨ humi > 100 then -999 / 10 else humi
  (temp, humi)

/-- Lines 107-161. -/
def SHT30_Read_Temp_Humi (env : Env) (s : Sys) : SHT30_Result × Sys :=
  let rx_buf : Fin 6 → Fin 256 := fun _ => 0
  let retry_cnt := 3
  let i2c_status : Option HAL_StatusTypeDef := none
  let temp : ℚ := -999 / 10
  let humi : ℚ := -999 / 10
  let tx_buf := [(SHT30_MEAS_CMD >>> 8) &&& 0xFF, SHT30_MEAS_CMD &&& 0xFF]
  let r := SHT30_Read_Temp_Humi.sendLoop env tx_buf retry_cnt i2c_status s
  if r.1 ≠ some .HAL_OK then
    ({ ret := 1, temp := temp, humi := humi }, printf (.sendFailed r.1) r.2)
  else
    let s := HAL_Delay 20 r.2
    let retry_cnt := 3
    let r := SHT30_Read_Temp_Humi.recvLoop env retry_cnt r.1 rx_buf s
    if r.1 ≠ some .HAL_OK then
      ({ ret := 1, temp := temp, humi := humi }, printf (.readFailed r.1) r.2.2)
    else
      let d := SHT30_Read_Temp_Humi.decode r.2.1
      ({ ret := 0, temp := d.1, humi := d.2 }, r.2.2)

/-- Lines 173-179: the first-call block of `Gas_Detection_System`. -/
def Gas_Detection_System.init (s : Sys) : Sys :=
  if s.init_flag = 0 then
    let s := MQ2_Preheat_Tips s
    let s := Buzzer_Off s
    let s := LED_Off s
    { s with init_flag := 1 }
  else s

/-- Lines 181-201 (`ledOn = false`, phase 1) and lines 203-223
(`ledOn = true`, phase 2) of `Gas_Detection_System`: the two blocks differ
only in the LED call and in the label of the status line. -/
def Gas_Detection_System.phase (env : Env) (ledOn : Bool) (s : Sys) : Sys :=
  let s := if ledOn then LED_On s else LED_Off s
  let a := MQ2_Read_AO_Value env s
  let mq2_adc := a.1
  let mq2_volt := MQ2_Convert_Voltage a.2 mq2_adc
  let d := MQ2_Read_DO_State env a.2
  let mq2_do := d.1
  let t := SHT30_Read_Temp_Humi env d.2
  let temp := t.1.temp
  let humi := t.1.humi
  let s := t.2
  let s :=
    if mq2_do = 0 then
      printf (.status ledOn true mq2_adc mq2_volt mq2_do temp humi) (Buzzer_On s)
    else
      printf (.status ledOn false mq2_adc mq2_volt mq2_do temp humi) (Buzzer_Off s)
  HAL_Delay 1000 s

/-- Lines 164-224. -/
def Gas_Detection_System (env : Env) (s : Sys) : Sys :=
  let s := Gas_Detection_System.init s
  let s := Gas_Detection_System.phase env false s
  Gas_Detection_System.phase env true s

/-- State after `n` consecutive calls of `Gas_Detection_System`. -/
def runCycles (env : Env) : Nat → Sys → Sys
  | 0, s => s
  | n + 1, s => runCycles env n (Gas_Detection_System env s)

/-! ## Observations on traces -/

/-- Recognises a `HAL_I2C_Master_Transmit` call. -/
def isTransmit : Event → Bool
  | .i2cTransmit _ _ _ _ => true
  | _ => false

/-- Recognises a `HAL_I2C_Master_Receive` call. -/
def isReceive : Event → Bool
  | .i2cReceive _ _ _ => true
  | _ => false

/-- The level written, when the call is a write to the buzzer pin PB0. -/
def buzzerLevel : Event → Option GPIO_PinState
  | .gpioWrite .PB0 level => some level
  | _ => none

/-- Number of `HAL_I2C_Master_Transmit` calls in a trace. -/
def countTransmit (t : List Event) : Nat :=
  t.countP isTransmit

/-- Number of `HAL_I2C_Master_Receive` calls in a trace. -/
def countReceive (t : List Event) : Nat :=
  t.countP isReceive

/-- Number of 50 ms backoff delays in a trace. -/
def countBackoff (t : List Event) : Nat :=
  t.count (.delay 50)

/-- Number of preheat advisories in a trace. -/
def countPreheat (t : List Event) : Nat :=
  t.count (.printf .preheat)

/-- The levels written to the buzzer pin PB0, in order. -/
def buzzerCmds (t : List Event) : List GPIO_PinState :=
  t.filterMap buzzerLevel

/-- Sum of the samples of the `n` polls starting at poll `k`, a failed poll
counting for nothing. -/
def adcSum (env : Env) : Nat → Nat → Nat
  | _, 0 => 0
  | k, n + 1 => (if env.adcPoll k = .HAL_OK then env.adcValue k else 0) + adcSum env (k + 1) n

/-- Frame condition relating the state before and after an operation that
only talks to the ADC or to the I2C bus: the two process-wide variables and
the PA1 read counter are unchanged, and the trace has grown by calls among
which there is neither a buzzer write nor a preheat advisory. -/
def Quiet (s s' : Sys) : Prop :=
  s'.g_scale_factor = s.g_scale_factor ∧ s'.init_flag = s.init_flag ∧ s'.nDo = s.nDo ∧
    ∃ evs, s'.trace = s.trace ++ evs ∧ buzzerCmds evs = [] ∧ countPreheat evs = 0

/-- Environment used for concrete evaluations: every ADC poll succeeds with
the value 1000, PA1 reads low, and the bus statuses and received bytes are
given. -/
def Env.test (tx rx : Nat → HAL_StatusTypeDef) (data : Fin 6 → Fin 256) : Env :=
  { adcPoll := fun _ => .HAL_OK, adcValue := fun _ => 1000, doPin := fun _ => .GPIO_PIN_RESET,
    i2cTx := tx, i2cRx := rx, i2cRxData := fun _ => data }

/-- Environment in which every second ADC poll times out and every sample is
4095. -/
def Env.flaky : Env :=
  { adcPoll := fun k => if k % 2 = 0 then .HAL_OK else .HAL_TIMEOUT, adcValue := fun _ => 4095,
    doPin := fun k => if k % 2 = 0 then .GPIO_PIN_SET else .GPIO_PIN_RESET,
    i2cTx := fun k => if k % 2 = 0 then .HAL_ERROR else .HAL_OK,
    i2cRx := fun k => if k % 2 = 0 then .HAL_BUSY else .HAL_OK,
    i2cRxData := fun _ i => if i.val % 3 = 0 then 0x66 else 0x80 }

/-! ## Voltage conversion and calibration -/

theorem rawVoltage_pos (raw : Nat) (h : 1 ≤ raw) : (0 : ℚ) < (raw : ℚ) / 4095 * (33 / 10) := by
  have h1 : (1 : ℚ) ≤ (raw : ℚ) := by exact_mod_cast h
  positivity

/-- C1: for an ADC code `raw` in [0, 4095] and a calibration factor > 0,
`MQ2_Convert_Voltage raw` is `raw/4095 * 3.3 * factor` clamped to [0, 5] (the
lower clamp never fires, so this is the minimum of 5 and that product), it
lies in [0, 5], it is 0 for `raw = 0`, and it is 3.3 for `raw = 4095` with
factor 1. -/
theorem MQ2_Convert_Voltage_clamped (s : Sys) (raw : Nat) (hraw : raw ≤ 4095)
    (hf : 0 < s.g_scale_factor) :
    MQ2_Convert_Voltage s raw = min 5 (max 0 ((raw : ℚ) / 4095 * (33 / 10) * s.g_scale_factor)) ∧
    MQ2_Convert_Voltage s raw = min 5 ((raw : ℚ) / 4095 * (33 / 10) * s.g_scale_factor) ∧
    0 ≤ MQ2_Convert_Voltage s raw ∧ MQ2_Convert_Voltage s raw ≤ 5 ∧
    (raw = 0 → MQ2_Convert_Voltage s raw = 0) ∧
    (raw = 4095 → s.g_scale_factor = 1 → MQ2_Convert_Voltage s raw = 33 / 10) := by
  have hr : (0 : ℚ) ≤ (raw : ℚ) := Nat.cast_nonneg raw
  have hr2 : (raw : ℚ) ≤ 4095 := by exact_mod_cast hraw
  have hx : 0 ≤ (raw : ℚ) / 4095 * (33 / 10) * s.g_scale_factor := by positivity
  refine ⟨?_, ?_, ?_, ?_, ?_, ?_⟩
  · simp only [MQ2_Convert_Voltage, min_def, max_def]
    split_ifs <;> linarith
  · simp only [MQ2_Convert_Voltage, min_def]
    split_ifs <;> linarith
  · simp only [MQ2_Convert_Voltage]
    split_ifs <;> linarith
  · simp only [MQ2_Convert_Voltage]
    split_ifs <;> linarith
  · intro h0
    subst h0
    simp [MQ2_Convert_Voltage]
  · intro h1 h2
    subst h1
    simp only [MQ2_Convert_Voltage, h2]
    norm_num

theorem MQ2_Convert_Voltage_clamped_witness :
    0 ≤ MQ2_Convert_Voltage Sys.initial 55 ∧ MQ2_Convert_Voltage Sys.initial 55 ≤ 5 ∧
    MQ2_Convert_Voltage Sys.initial 55 = 5203 / 13000 := by
  have h := MQ2_Convert_Voltage_clamped Sys.initial 55 (by decide)
    (by simp only [Sys.initial]; norm_num)
  refine ⟨h.2.2.1, h.2.2.2.1, ?_⟩
  rw [h.2.1]
  simp only [Sys.initial]
  norm_num

/-- C2: calibration round trip. For `raw` in [1, 4095] and a reference
voltage `v` in [0, 5], `MQ2_Calibrate v raw` succeeds and sets the factor to
`v / (raw/4095*3.3)`, after which `MQ2_Convert_Voltage raw` returns `v`. -/
theorem MQ2_Calibrate_roundtrip (s : Sys) (v : ℚ) (raw : Nat) (h1 : 1 ≤ raw) (h2 : raw ≤ 4095)
    (hv0 : 0 ≤ v) (hv5 : v ≤ 5) :
    ∃ s', MQ2_Calibrate s v raw = some s' ∧
      s'.g_scale_factor = v / ((raw : ℚ) / 4095 * (33 / 10)) ∧
      MQ2_Convert_Voltage s' raw = v := by
  have _hraw : (raw : ℚ) ≤ 4095 := by exact_mod_cast h2
  have hpos := rawVoltage_pos raw h1
  have hne : (raw : ℚ) / 4095 * (33 / 10) ≠ 0 := ne_of_gt hpos
  refine ⟨_, by simp only [MQ2_Calibrate, if_neg hne]; rfl, rfl, ?_⟩
  have hmul : (raw : ℚ) / 4095 * (33 / 10) * (v / ((raw : ℚ) / 4095 * (33 / 10))) = v := by
    field_simp
    ring
  simp only [MQ2_Convert_Voltage, printf, emit, hmul]
  rw [if_neg (not_lt.mpr hv0), if_neg (not_lt.mpr hv5)]

theorem MQ2_Calibrate_roundtrip_witness :
    ∃ s', MQ2_Calibrate Sys.initial 2 100 = some s' ∧
      s'.g_scale_factor = 273 / 11 ∧
      (2481 : ℚ) / 100 < 273 / 11 ∧ (273 : ℚ) / 11 < 2482 / 100 ∧
      MQ2_Convert_Voltage s' 100 = 2 := by
  obtain ⟨s', hs, hf, hc⟩ :=
    MQ2_Calibrate_roundtrip Sys.initial 2 100 (by decide) (by decide) (by norm_num) (by norm_num)
  refine ⟨s', hs, ?_, by norm_num, by norm_num, hc⟩
  rw [hf]
  norm_num

/-! ## SHT30 acquisition -/

theorem exists_lt_three (P : Nat → Prop) : (∃ i, i < 3 ∧ P i) ↔ P 0 ∨ P 1 ∨ P 2 := by
  constructor
  · rintro ⟨i, hi, hp⟩
    interval_cases i
    · exact Or.inl hp
    · exact Or.inr (Or.inl hp)
    · exact Or.inr (Or.inr hp)
  · rintro (h | h | h)
    · exact ⟨0, by decide, h⟩
    · exact ⟨1, by decide, h⟩
    · exact ⟨2, by decide, h⟩

theorem tx_buf_eq : [(SHT30_MEAS_CMD >>> 8) &&& 0xFF, SHT30_MEAS_CMD &&& 0xFF] = [0x2C, 0x06] := by
  decide

theorem be16_eq (hi lo : Fin 256) : ((hi.val <<< 8) ||| lo.val) % 65536 = 256 * hi.val + lo.val := by
  have hlo : lo.val < 2 ^ 8 := lo.isLt
  have hhi : hi.val < 256 := hi.isLt
  rw [Nat.shiftLeft_eq, Nat.mul_comm, ← Nat.mul_add_lt_is_or hlo]
  omega

/-- C3: when the first three transmit attempts all return a non-OK status,
`SHT30_Read_Temp_Humi` makes exactly three transmit attempts (each followed
by the 50 ms delay), reports the failure, makes no receive attempt, returns
1 and leaves both outputs at the sentinel -99.9. -/
theorem SHT30_send_exhausted (env : Env) (s : Sys)
    (h : ∀ i, i < 3 → env.i2cTx (s.nTx + i) ≠ .HAL_OK) :
    (SHT30_Read_Temp_Humi env s).2.trace = s.trace ++
      [.i2cTransmit 0x88 [0x2C, 0x06] 2 500, .delay 50,
       .i2cTransmit 0x88 [0x2C, 0x06] 2 500, .delay 50,
       .i2cTransmit 0x88 [0x2C, 0x06] 2 500, .delay 50,
       .printf (.sendFailed (some (env.i2cTx (s.nTx + 2))))] ∧
    countTransmit (SHT30_Read_Temp_Humi env s).2.trace = countTransmit s.trace + 3 ∧
    countReceive (SHT30_Read_Temp_Humi env s).2.trace = countReceive s.trace ∧
    (SHT30_Read_Temp_Humi env s).2.nTx = s.nTx + 3 ∧
    (SHT30_Read_Temp_Humi env s).2.nRx = s.nRx ∧
    (SHT30_Read_Temp_Humi env s).1 = { ret := 1, temp := -999 / 10, humi := -999 / 10 } := by
  have h0 := h 0 (by decide)
  have h1 := h 1 (by decide)
  have h2 := h 2 (by decide)
  simp only [Nat.add_zero] at h0
  simp [SHT30_Read_Temp_Humi, SHT30_Read_Temp_Humi.sendLoop, HAL_I2C_Master_Transmit, HAL_Delay,
    printf, emit, h0, h1, h2, countTransmit, countReceive, isTransmit, isReceive, tx_buf_eq,
    SHT30_I2C_ADDR, I2C_TIMEOUT_MS]

theorem SHT30_send_exhausted_witness :
    (SHT30_Read_Temp_Humi (Env.test (fun _ => .HAL_ERROR) (fun _ => .HAL_OK) (fun _ => 0))
      Sys.initial).2.trace =
      [.i2cTransmit 0x88 [0x2C, 0x06] 2 500, .delay 50,
       .i2cTransmit 0x88 [0x2C, 0x06] 2 500, .delay 50,
       .i2cTransmit 0x88 [0x2C, 0x06] 2 500, .delay 50,
       .printf (.sendFailed (some .HAL_ERROR))] ∧
    (SHT30_Read_Temp_Humi (Env.test (fun _ => .HAL_ERROR) (fun _ => .HAL_OK) (fun _ => 0))
      Sys.initial).1 = { ret := 1, temp := -999 / 10, humi := -999 / 10 } := by
  have h := SHT30_send_exhausted (Env.test (fun _ => .HAL_ERROR) (fun _ => .HAL_OK) (fun _ => 0))
    Sys.initial (fun _ _ => by simp [Env.test])
  exact ⟨h.1, h.2.2.2.2.2⟩

/-- C4: `SHT30_Read_Temp_Humi` returns 0 exactly when one of the first three
transmit statuses is OK and one of the first three receive statuses is OK;
otherwise it returns 1 with both outputs at the sentinel -99.9. -/
theorem SHT30_return_code (env : Env) (s : Sys) :
    ((SHT30_Read_Temp_Humi env s).1.ret = 0 ↔
      (∃ i, i < 3 ∧ env.i2cTx (s.nTx + i) = .HAL_OK) ∧
      (∃ j, j < 3 ∧ env.i2cRx (s.nRx + j) = .HAL_OK)) ∧
    ((SHT30_Read_Temp_Humi env s).1.ret ≠ 0 →
      (SHT30_Read_Temp_Humi env s).1 = { ret := 1, temp := -999 / 10, humi := -999 / 10 }) := by
  rw [exists_lt_three, exists_lt_three]
  simp only [Nat.add_zero]
  by_cases t0 : env.i2cTx s.nTx = .HAL_OK <;>
  by_cases t1 : env.i2cTx (s.nTx + 1) = .HAL_OK <;>
  by_cases t2 : env.i2cTx (s.nTx + 2) = .HAL_OK <;>
  by_cases r0 : env.i2cRx s.nRx = .HAL_OK <;>
  by_cases r1 : env.i2cRx (s.nRx + 1) = .HAL_OK <;>
  by_cases r2 : env.i2cRx (s.nRx + 2) = .HAL_OK <;>
  simp [SHT30_Read_Temp_Humi, SHT30_Read_Temp_Humi.sendLoop, SHT30_Read_Temp_Humi.recvLoop,
    HAL_I2C_Master_Transmit, HAL_I2C_Master_Receive, HAL_Delay, printf, emit,
    t0, t1, t2, r0, r1, r2]

theorem sendLoop_nRx (env : Env) (tx_buf : List Nat) (n : Nat) (st : Option HAL_StatusTypeDef)
    (s : Sys) : (SHT30_Read_Temp_Humi.sendLoop env tx_buf n st s).2.nRx = s.nRx := by
  induction n generalizing st s with
  | zero => rfl
  | succ n ih =>
    simp only [SHT30_Read_Temp_Humi.sendLoop]
    split_ifs
    · rfl
    · rw [ih]
      rfl

theorem delay_sendLoop_nRx (env : Env) (tx_buf : List Nat) (n ms : Nat)
    (st : Option HAL_StatusTypeDef) (s : Sys) :
    (HAL_Delay ms (SHT30_Read_Temp_Humi.sendLoop env tx_buf n st s).2).nRx = s.nRx := by
  simp only [HAL_Delay, emit, sendLoop_nRx]

theorem recvLoop_data (env : Env) (st : Option HAL_StatusTypeDef) (rx_buf : Fin 6 → Fin 256)
    (s : Sys) (h : (SHT30_Read_Temp_Humi.recvLoop env 3 st rx_buf s).1 = some .HAL_OK) :
    ∃ k, k < 3 ∧ env.i2cRx (s.nRx + k) = .HAL_OK ∧
      (∀ j, j < k → env.i2cRx (s.nRx + j) ≠ .HAL_OK) ∧
      (SHT30_Read_Temp_Humi.recvLoop env 3 st rx_buf s).2.1 = env.i2cRxData (s.nRx + k) := by
  by_cases r0 : env.i2cRx s.nRx = .HAL_OK
  · refine ⟨0, by decide, r0, fun j hj => absurd hj (Nat.not_lt_zero j), ?_⟩
    simp [SHT30_Read_Temp_Humi.recvLoop, HAL_I2C_Master_Receive, r0]
  by_cases r1 : env.i2cRx (s.nRx + 1) = .HAL_OK
  · refine ⟨1, by decide, r1, fun j hj => ?_, ?_⟩
    · obtain rfl : j = 0 := by omega
      exact r0
    · simp [SHT30_Read_Temp_Humi.recvLoop, HAL_I2C_Master_Receive, HAL_Delay, emit, r0, r1]
  by_cases r2 : env.i2cRx (s.nRx + 2) = .HAL_OK
  · refine ⟨2, by decide, r2, fun j hj => ?_, ?_⟩
    · have hj' : j = 0 ∨ j = 1 := by omega
      rcases hj' with rfl | rfl
      · exact r0
      · exact r1
    · simp [SHT30_Read_Temp_Humi.recvLoop, HAL_I2C_Master_Receive, HAL_Delay, emit, r0, r1, r2]
  · exfalso
    simp [SHT30_Read_Temp_Humi.recvLoop, HAL_I2C_Master_Receive, HAL_Delay, emit, r0, r1, r2] at h

theorem decode_eq (b : Fin 6 → Fin 256) :
    SHT30_Read_Temp_Humi.decode b =
      (if -45 ≤ -45 + 175 * ((256 * (b 0).val + (b 1).val : ℕ) : ℚ) / 65535 ∧
          -45 + 175 * ((256 * (b 0).val + (b 1).val : ℕ) : ℚ) / 65535 ≤ 125
        then -45 + 175 * ((256 * (b 0).val + (b 1).val : ℕ) : ℚ) / 65535 else -999 / 10,
       if 0 ≤ 100 * ((256 * (b 3).val + (b 4).val : ℕ) : ℚ) / 65535 ∧
          100 * ((256 * (b 3).val + (b 4).val : ℕ) : ℚ) / 65535 ≤ 100
        then 100 * ((256 * (b 3).val + (b 4).val : ℕ) : ℚ) / 65535 else -999 / 10) := by
  simp only [SHT30_Read_Temp_Humi.decode, be16_eq, gt_iff_lt]
  congr 1
  · by_cases h : -45 ≤ -45 + 175 * ((256 * (b 0).val + (b 1).val : ℕ) : ℚ) / 65535 ∧
        -45 + 175 * ((256 * (b 0).val + (b 1).val : ℕ) : ℚ) / 65535 ≤ 125
    · rw [if_pos h, if_neg]
      rintro (h' | h')
      · exact absurd h.1 (not_le.mpr h')
      · exact absurd h.2 (not_le.mpr h')
    · rw [if_neg h, if_pos]
      by_contra h'
      apply h
      constructor
      · exact not_lt.mp (fun hh => h' (Or.inl hh))
      · exact not_lt.mp (fun hh => h' (Or.inr hh))
  · by_cases h : 0 ≤ 100 * ((256 * (b 3).val + (b 4).val : ℕ) : ℚ) / 65535 ∧
        100 * ((256 * (b 3).val + (b 4).val : ℕ) : ℚ) / 65535 ≤ 100
    · rw [if_pos h, if_neg]
      rintro (h' | h')
      · exact absurd h.1 (not_le.mpr h')
      · exact absurd h.2 (not_le.mpr h')
    · rw [if_neg h, if_pos]
      by_contra h'
      apply h
      constructor
      · exact not_lt.mp (fun hh => h' (Or.inl hh))
      · exact not_lt.mp (fun hh => h' (Or.inr hh))

/-- C5: when `SHT30_Read_Temp_Humi` returns 0, the bytes `b` it decodes are
those of the first receive attempt that returned OK; with
`temp_raw = 256*b0 + b1` and `humi_raw = 256*b3 + b4`, `*temp` is
`-45 + 175*temp_raw/65535` when that lies in [-45, 125] and -99.9 otherwise,
and `*humi` is `100*humi_raw/65535` when that lies in [0, 100] and -99.9
otherwise; `b2` and `b5` do not occur. In particular `temp_raw = 0` gives
-45, `temp_raw = 65535` gives the sentinel, `humi_raw = 0` gives 0 and
`humi_raw = 65535` gives 100. -/
theorem SHT30_decode_and_guard (env : Env) (s : Sys)
    (h : (SHT30_Read_Temp_Humi env s).1.ret = 0) :
    ∃ k, k < 3 ∧ env.i2cRx (s.nRx + k) = .HAL_OK ∧
      (∀ j, j < k → env.i2cRx (s.nRx + j) ≠ .HAL_OK) ∧
      ∃ b0 b1 b3 b4 temp_raw humi_raw : Nat,
        b0 = (env.i2cRxData (s.nRx + k) 0).val ∧ b1 = (env.i2cRxData (s.nRx + k) 1).val ∧
        b3 = (env.i2cRxData (s.nRx + k) 3).val ∧ b4 = (env.i2cRxData (s.nRx + k) 4).val ∧
        temp_raw = 256 * b0 + b1 ∧ humi_raw = 256 * b3 + b4 ∧
        (SHT30_Read_Temp_Humi env s).1.temp =
          (if -45 ≤ -45 + 175 * (temp_raw : ℚ) / 65535 ∧ -45 + 175 * (temp_raw : ℚ) / 65535 ≤ 125
            then -45 + 175 * (temp_raw : ℚ) / 65535 else -999 / 10) ∧
        (SHT30_Read_Temp_Humi env s).1.humi =
          (if 0 ≤ 100 * (humi_raw : ℚ) / 65535 ∧ 100 * (humi_raw : ℚ) / 65535 ≤ 100
            then 100 * (humi_raw : ℚ) / 65535 else -999 / 10) ∧
        (temp_raw = 0 → (SHT30_Read_Temp_Humi env s).1.temp = -45) ∧
        (temp_raw = 65535 → (SHT30_Read_Temp_Humi env s).1.temp = -999 / 10) ∧
        (humi_raw = 0 → (SHT30_Read_Temp_Humi env s).1.humi = 0) ∧
        (humi_raw = 65535 → (SHT30_Read_Temp_Humi env s).1.humi = 100) := by
  unfold SHT30_Read_Temp_Humi at h ⊢
  simp only [] at h ⊢
  split_ifs at h ⊢ with h1 h2
  · have h2' := not_not.mp h2
    obtain ⟨k, hk, hok, hbefore, hdata⟩ := recvLoop_data env _ _ _ h2'
    simp only [delay_sendLoop_nRx] at hok hbefore hdata
    refine ⟨k, hk, hok, hbefore, _, _, _, _, _, _, rfl, rfl, rfl, rfl, rfl, rfl, ?_⟩
    simp only [hdata, decode_eq]
    refine ⟨trivial, trivial, ?_, ?_, ?_, ?_⟩
    · intro h0
      rw [h0]
      norm_num
    · intro h0
      rw [h0]
      norm_num
    · intro h0
      rw [h0]
      norm_num
    · intro h0
      rw [h0]
      norm_num

theorem SHT30_decode_and_guard_witness :
    (SHT30_Read_Temp_Humi (Env.test (fun _ => .HAL_OK) (fun _ => .HAL_OK) (fun _ => 255))
      Sys.initial).1 = { ret := 0, temp := -999 / 10, humi := 100 } := by
  have hret : (SHT30_Read_Temp_Humi (Env.test (fun _ => .HAL_OK) (fun _ => .HAL_OK)
      (fun _ => 255)) Sys.initial).1.ret = 0 := by
    simp [SHT30_Read_Temp_Humi, SHT30_Read_Temp_Humi.sendLoop, SHT30_Read_Temp_Humi.recvLoop,
      HAL_I2C_Master_Transmit, HAL_I2C_Master_Receive, Env.test]
  obtain ⟨k, _, _, _, b0, b1, b3, b4, temp_raw, humi_raw, h0, h1, h3, h4, ht, hh, _, _, _, ht',
    _, hh'⟩ := SHT30_decode_and_guard _ _ hret
  have e0 : b0 = 255 := h0
  have e1 : b1 = 255 := h1
  have e3 : b3 = 255 := h3
  have e4 : b4 = 255 := h4
  have et := ht' (by omega)
  have eh := hh' (by omega)
  cases hr : (SHT30_Read_Temp_Humi (Env.test (fun _ => .HAL_OK) (fun _ => .HAL_OK)
      (fun _ => 255)) Sys.initial).1 with
  | mk ret temp humi =>
    rw [hr] at hret et eh
    simp only at hret et eh
    rw [hret, et, eh]

/-- C10: the code evaluated where it departs from the claim. The claim puts
the 50 ms backoff only between consecutive attempts, so a phase whose three
attempts fail should run 2 backoff delays. With every transmit failing,
`SHT30_Read_Temp_Humi` makes 3 transmit attempts and runs 3 backoff delays,
the third one after the last attempt and before the failure is reported;
with the transmit succeeding and every receive failing, the receive phase
likewise makes 3 attempts and runs 3 backoff delays. -/
theorem SHT30_backoff_exhaustion_three_delays :
    (SHT30_Read_Temp_Humi
      (Env.test (fun _ => .HAL_ERROR) (fun _ => .HAL_OK) (fun _ => 0)) Sys.initial).2.trace =
      [.i2cTransmit 0x88 [0x2C, 0x06] 2 500, .delay 50,
       .i2cTransmit 0x88 [0x2C, 0x06] 2 500, .delay 50,
       .i2cTransmit 0x88 [0x2C, 0x06] 2 500, .delay 50,
       .printf (.sendFailed (some .HAL_ERROR))] ∧
    countTransmit (SHT30_Read_Temp_Humi
      (Env.test (fun _ => .HAL_ERROR) (fun _ => .HAL_OK) (fun _ => 0)) Sys.initial).2.trace = 3 ∧
    countBackoff (SHT30_Read_Temp_Humi
      (Env.test (fun _ => .HAL_ERROR) (fun _ => .HAL_OK) (fun _ => 0)) Sys.initial).2.trace = 3 ∧
    countBackoff (SHT30_Read_Temp_Humi
      (Env.test (fun _ => .HAL_ERROR) (fun _ => .HAL_OK) (fun _ => 0)) Sys.initial).2.trace ≠ 3 - 1 ∧
    (SHT30_Read_Temp_Humi
      (Env.test (fun _ => .HAL_OK) (fun _ => .HAL_TIMEOUT) (fun _ => 0)) Sys.initial).2.trace =
      [.i2cTransmit 0x88 [0x2C, 0x06] 2 500, .delay 20,
       .i2cReceive 0x88 6 500, .delay 50,
       .i2cReceive 0x88 6 500, .delay 50,
       .i2cReceive 0x88 6 500, .delay 50,
       .printf (.readFailed (some .HAL_TIMEOUT))] ∧
    countReceive (SHT30_Read_Temp_Humi
      (Env.test (fun _ => .HAL_OK) (fun _ => .HAL_TIMEOUT) (fun _ => 0)) Sys.initial).2.trace = 3 ∧
    countBackoff (SHT30_Read_Temp_Humi
      (Env.test (fun _ => .HAL_OK) (fun _ => .HAL_TIMEOUT) (fun _ => 0)) Sys.initial).2.trace = 3 := by
  decide

/-! ## ADC averaging -/

theorem adcSum_le (env : Env) (n k : Nat)
    (h : ∀ i, i < n → env.adcPoll (k + i) = .HAL_OK → env.adcValue (k + i) ≤ 4095) :
    adcSum env k n ≤ 4095 * n := by
  induction n generalizing k with
  | zero => simp [adcSum]
  | succ n ih =>
    have h0 := h 0 (Nat.succ_pos n)
    have ih' := ih (k + 1) (fun i hi => by
      have := h (i + 1) (Nat.succ_lt_succ hi)
      rwa [show k + (i + 1) = k + 1 + i by omega] at this)
    simp only [adcSum, Nat.add_zero] at h0 ⊢
    split_ifs with hp
    · have := h0 hp
      omega
    · omega

theorem adcSum_const (env : Env) (v n k : Nat)
    (h : ∀ i, i < n → env.adcPoll (k + i) = .HAL_OK ∧ env.adcValue (k + i) = v) :
    adcSum env k n = n * v := by
  induction n generalizing k with
  | zero => simp [adcSum]
  | succ n ih =>
    have h0 := h 0 (Nat.succ_pos n)
    have ih' := ih (k + 1) (fun i hi => by
      have := h (i + 1) (Nat.succ_lt_succ hi)
      rwa [show k + (i + 1) = k + 1 + i by omega] at this)
    simp only [Nat.add_zero] at h0
    simp only [adcSum, h0.1, h0.2, if_true, ih']
    ring

theorem MQ2_loop_spec (env : Env) (n acc : Nat) (s : Sys)
    (h : ∀ i, i < n → env.adcPoll (s.nAdc + i) = .HAL_OK → env.adcValue (s.nAdc + i) ≤ 4095)
    (hacc : acc + 4095 * n < 65536) :
    (MQ2_Read_AO_Value.loop env n acc s).1 = acc + adcSum env s.nAdc n ∧
    (MQ2_Read_AO_Value.loop env n acc s).2.nAdc = s.nAdc + n := by
  induction n generalizing acc s with
  | zero => simp [MQ2_Read_AO_Value.loop, adcSum]
  | succ n ih =>
    have h0 := h 0 (Nat.succ_pos n)
    simp only [Nat.add_zero] at h0
    have hrest : ∀ i, i < n → env.adcPoll (s.nAdc + 1 + i) = .HAL_OK →
        env.adcValue (s.nAdc + 1 + i) ≤ 4095 := fun i hi => by
      have := h (i + 1) (Nat.succ_lt_succ hi)
      rwa [show s.nAdc + (i + 1) = s.nAdc + 1 + i by omega] at this
    simp only [MQ2_Read_AO_Value.loop, adcSum, HAL_ADC_PollForConversion, HAL_ADC_GetValue,
      HAL_Delay, emit, Nat.add_sub_cancel]
    split_ifs with hp
    · have hv := h0 hp
      have e1 : env.adcValue s.nAdc % 4294967296 = env.adcValue s.nAdc := by omega
      have e2 : (acc + env.adcValue s.nAdc) % 4294967296 % 65536 = acc + env.adcValue s.nAdc := by
        omega
      rw [e1, e2]
      have := ih (acc + env.adcValue s.nAdc)
        { s with trace := s.trace ++ [Event.adcPoll 100] ++ [Event.adcGetValue] ++ [Event.delay 10],
                 nAdc := s.nAdc + 1 } hrest (by omega)
      simp only [List.append_assoc] at this ⊢
      constructor
      · rw [this.1]; omega
      · rw [this.2]; omega
    · have := ih acc
        { s with trace := s.trace ++ [Event.adcPoll 100] ++ [Event.delay 10],
                 nAdc := s.nAdc + 1 } hrest (by omega)
      simp only [List.append_assoc] at this ⊢
      constructor
      · rw [this.1]; omega
      · rw [this.2]; omega

/-- C6: when each of the 10 polls either fails or succeeds with a sample in
[0, 4095], `MQ2_Read_AO_Value` makes exactly 10 polls, its 16-bit
accumulator ends at the exact sum `S` of the samples of the successful polls
(no wrap-around, `S ≤ 40950 < 65536`), and it returns `S / 10` (the divisor
is 10 whatever the number of successful polls), a value in [0, 4095]; when
all 10 polls succeed with the same value `v` it returns `v`. -/
theorem MQ2_Read_AO_Value_average (env : Env) (s : Sys)
    (h : ∀ i, i < 10 → env.adcPoll (s.nAdc + i) = .HAL_OK → env.adcValue (s.nAdc + i) ≤ 4095) :
    (MQ2_Read_AO_Value env s).2.nAdc = s.nAdc + 10 ∧
    (MQ2_Read_AO_Value.loop env 10 0 (HAL_ADC_Start s)).1 = adcSum env s.nAdc 10 ∧
    adcSum env s.nAdc 10 ≤ 40950 ∧
    (MQ2_Read_AO_Value env s).1 = adcSum env s.nAdc 10 / 10 ∧
    (MQ2_Read_AO_Value env s).1 ≤ 4095 ∧
    (∀ v, (∀ i, i < 10 → env.adcPoll (s.nAdc + i) = .HAL_OK ∧ env.adcValue (s.nAdc + i) = v) →
      (MQ2_Read_AO_Value env s).1 = v) := by
  have hle := adcSum_le env 10 s.nAdc h
  have hl := MQ2_loop_spec env 10 0 (HAL_ADC_Start s) h (by decide)
  have hs : (HAL_ADC_Start s).nAdc = s.nAdc := rfl
  rw [hs, Nat.zero_add] at hl
  have hres : (MQ2_Read_AO_Value env s).1 = adcSum env s.nAdc 10 / 10 := by
    simp only [MQ2_Read_AO_Value, hl.1]
    omega
  refine ⟨?_, hl.1, by omega, hres, by omega, ?_⟩
  · simp only [MQ2_Read_AO_Value, HAL_ADC_Stop, emit, hl.2]
  · intro v hv
    rw [hres, adcSum_const env v 10 s.nAdc hv]
    omega

theorem MQ2_Read_AO_Value_average_witness :
    adcSum Env.flaky 0 10 = 20475 ∧ (MQ2_Read_AO_Value Env.flaky Sys.initial).1 = 2047 ∧
    (MQ2_Read_AO_Value Env.flaky Sys.initial).2.nAdc = 10 := by
  have h := MQ2_Read_AO_Value_average Env.flaky Sys.initial
    (fun i _ _ => by simp [Env.flaky])
  have hs : adcSum Env.flaky 0 10 = 20475 := by decide
  refine ⟨hs, ?_, h.1⟩
  rw [h.2.2.2.1]
  exact congrArg (fun x => x / 10) hs

/-! ## Frame conditions -/

theorem buzzerCmds_append (a b : List Event) : buzzerCmds (a ++ b) = buzzerCmds a ++ buzzerCmds b := by
  simp [buzzerCmds]

theorem countPreheat_append (a b : List Event) :
    countPreheat (a ++ b) = countPreheat a + countPreheat b := by
  simp [countPreheat]

theorem Quiet.refl (s : Sys) : Quiet s s :=
  ⟨rfl, rfl, rfl, [], by simp, rfl, rfl⟩

theorem Quiet.trans {s₁ s₂ s₃ : Sys} (h₁ : Quiet s₁ s₂) (h₂ : Quiet s₂ s₃) : Quiet s₁ s₃ := by
  obtain ⟨a1, b1, c1, e1, t1, q1, p1⟩ := h₁
  obtain ⟨a2, b2, c2, e2, t2, q2, p2⟩ := h₂
  refine ⟨a2.trans a1, b2.trans b1, c2.trans c1, e1 ++ e2, ?_, ?_, ?_⟩
  · rw [t2, t1, List.append_assoc]
  · rw [buzzerCmds_append, q1, q2]
    rfl
  · rw [countPreheat_append, p1, p2]

theorem quiet_delay (ms : Nat) (s : Sys) : Quiet s (HAL_Delay ms s) :=
  ⟨rfl, rfl, rfl, [.delay ms], rfl, rfl, by simp [countPreheat]⟩

theorem quiet_led (level : GPIO_PinState) (s : Sys) : Quiet s (HAL_GPIO_WritePin .PB2 level s) :=
  ⟨rfl, rfl, rfl, [.gpioWrite .PB2 level], rfl, rfl, by simp [countPreheat]⟩

theorem quiet_sendLoop (env : Env) (tx_buf : List Nat) (n : Nat) (st : Option HAL_StatusTypeDef)
    (s : Sys) : Quiet s (SHT30_Read_Temp_Humi.sendLoop env tx_buf n st s).2 := by
  induction n generalizing st s with
  | zero => exact Quiet.refl s
  | succ n ih =>
    have hstep : Quiet s (HAL_I2C_Master_Transmit env SHT30_I2C_ADDR tx_buf 2 I2C_TIMEOUT_MS s).2 :=
      ⟨rfl, rfl, rfl, [.i2cTransmit SHT30_I2C_ADDR tx_buf 2 I2C_TIMEOUT_MS], rfl, rfl,
        by simp [countPreheat]⟩
    simp only [SHT30_Read_Temp_Humi.sendLoop]
    split_ifs
    · exact hstep
    · exact (hstep.trans (quiet_delay 50 _)).trans (ih _ _)

theorem quiet_recvLoop (env : Env) (n : Nat) (st : Option HAL_StatusTypeDef)
    (rx_buf : Fin 6 → Fin 256) (s : Sys) :
    Quiet s (SHT30_Read_Temp_Humi.recvLoop env n st rx_buf s).2.2 := by
  induction n generalizing st rx_buf s with
  | zero => exact Quiet.refl s
  | succ n ih =>
    have hstep : Quiet s (HAL_I2C_Master_Receive env SHT30_I2C_ADDR 6 I2C_TIMEOUT_MS s).2.2 :=
      ⟨rfl, rfl, rfl, [.i2cReceive SHT30_I2C_ADDR 6 I2C_TIMEOUT_MS], rfl, rfl,
        by simp [countPreheat]⟩
    simp only [SHT30_Read_Temp_Humi.recvLoop]
    split_ifs
    · exact hstep
    · exact (hstep.trans (quiet_delay 50 _)).trans (ih _ _ _)

theorem quiet_SHT30 (env : Env) (s : Sys) : Quiet s (SHT30_Read_Temp_Humi env s).2 := by
  have hmsg : ∀ (m : Msg) (s : Sys), m ≠ .preheat → Quiet s (printf m s) := fun m s hm =>
    ⟨rfl, rfl, rfl, [.printf m], rfl, rfl, by
      rw [countPreheat, List.count_eq_zero]
      simpa using fun h => hm h.symm⟩
  simp only [SHT30_Read_Temp_Humi]
  split_ifs
  · exact (quiet_sendLoop env _ _ _ s).trans (hmsg _ _ (by simp))
  · exact (((quiet_sendLoop env _ _ _ s).trans (quiet_delay 20 _)).trans
      (quiet_recvLoop env _ _ _ _)).trans (hmsg _ _ (by simp))
  · exact ((quiet_sendLoop env _ _ _ s).trans (quiet_delay 20 _)).trans
      (quiet_recvLoop env _ _ _ _)

theorem quiet_adcLoop (env : Env) (n acc : Nat) (s : Sys) :
    Quiet s (MQ2_Read_AO_Value.loop env n acc s).2 := by
  induction n generalizing acc s with
  | zero => exact Quiet.refl s
  | succ n ih =>
    have hpoll : Quiet s (HAL_ADC_PollForConversion env 100 s).2 :=
      ⟨rfl, rfl, rfl, [.adcPoll 100], rfl, rfl, by simp [countPreheat]⟩
    have hget : ∀ s : Sys, Quiet s (HAL_ADC_GetValue env s).2 := fun s =>
      ⟨rfl, rfl, rfl, [.adcGetValue], rfl, rfl, by simp [countPreheat]⟩
    simp only [MQ2_Read_AO_Value.loop]
    split_ifs
    · exact ((hpoll.trans (hget _)).trans (quiet_delay 10 _)).trans (ih _ _)
    · exact (hpoll.trans (quiet_delay 10 _)).trans (ih _ _)

theorem quiet_MQ2_Read_AO_Value (env : Env) (s : Sys) : Quiet s (MQ2_Read_AO_Value env s).2 := by
  have hstart : Quiet s (HAL_ADC_Start s) :=
    ⟨rfl, rfl, rfl, [.adcStart], rfl, rfl, by simp [countPreheat]⟩
  have hstop : ∀ s : Sys, Quiet s (HAL_ADC_Stop s) := fun s =>
    ⟨rfl, rfl, rfl, [.adcStop], rfl, rfl, by simp [countPreheat]⟩
  simp only [MQ2_Read_AO_Value]
  exact (hstart.trans (quiet_adcLoop env _ _ _)).trans (hstop _)

/-! ## Detection cycle -/

/-- What one phase of `Gas_Detection_System` does to the observed part of
the state. -/
theorem phase_spec (env : Env) (ledOn : Bool) (s : Sys) :
    (Gas_Detection_System.phase env ledOn s).g_scale_factor = s.g_scale_factor ∧
    (Gas_Detection_System.phase env ledOn s).init_flag = s.init_flag ∧
    (Gas_Detection_System.phase env ledOn s).nDo = s.nDo + 1 ∧
    ∃ evs, (Gas_Detection_System.phase env ledOn s).trace = s.trace ++ evs ∧
      buzzerCmds evs = [if (env.doPin s.nDo).toNat = 0 then .GPIO_PIN_RESET else .GPIO_PIN_SET] ∧
      countPreheat evs = 0 := by
  have q1 : Quiet s (MQ2_Read_AO_Value env (if ledOn = true then LED_On s else LED_Off s)).2 := by
    refine Quiet.trans ?_ (quiet_MQ2_Read_AO_Value env _)
    cases ledOn
    · exact quiet_led _ _
    · exact quiet_led _ _
  have q2 := quiet_SHT30 env (MQ2_Read_DO_State env
    (MQ2_Read_AO_Value env (if ledOn = true then LED_On s else LED_Off s)).2).2
  unfold Gas_Detection_System.phase
  simp only []
  generalize MQ2_Read_AO_Value env (if ledOn = true then LED_On s else LED_Off s) = A at q1 q2 ⊢
  generalize hT : SHT30_Read_Temp_Humi env (MQ2_Read_DO_State env A.2).2 = T at q2 ⊢
  obtain ⟨f1, i1, n1, e1, t1, b1, p1⟩ := q1
  obtain ⟨f2, i2, n2, e2, t2, b2, p2⟩ := q2
  simp only [MQ2_Read_DO_State, HAL_GPIO_ReadPin, emit] at f2 i2 n2 t2
  have hdo : (MQ2_Read_DO_State env A.2).1 = (env.doPin s.nDo).toNat := by
    simp only [MQ2_Read_DO_State, HAL_GPIO_ReadPin, n1]
  rw [hdo]
  split_ifs with hz
  · refine ⟨by simp [HAL_Delay, printf, Buzzer_On, HAL_GPIO_WritePin, emit, f2, f1],
      by simp [HAL_Delay, printf, Buzzer_On, HAL_GPIO_WritePin, emit, i2, i1],
      by simp [HAL_Delay, printf, Buzzer_On, HAL_GPIO_WritePin, emit, n2, n1],
      e1 ++ [.gpioRead] ++ e2 ++ [.gpioWrite .PB0 .GPIO_PIN_RESET,
        .printf (.status ledOn true A.1 (MQ2_Convert_Voltage A.2 A.1) (env.doPin s.nDo).toNat
          T.1.temp T.1.humi), .delay 1000], ?_, ?_, ?_⟩
    · simp [HAL_Delay, printf, Buzzer_On, HAL_GPIO_WritePin, emit, t2, t1]
    · simp only [buzzerCmds_append, b1, b2]
      rfl
    · simp only [countPreheat_append, p1, p2]
      simp [countPreheat]
  · refine ⟨by simp [HAL_Delay, printf, Buzzer_Off, HAL_GPIO_WritePin, emit, f2, f1],
      by simp [HAL_Delay, printf, Buzzer_Off, HAL_GPIO_WritePin, emit, i2, i1],
      by simp [HAL_Delay, printf, Buzzer_Off, HAL_GPIO_WritePin, emit, n2, n1],
      e1 ++ [.gpioRead] ++ e2 ++ [.gpioWrite .PB0 .GPIO_PIN_SET,
        .printf (.status ledOn false A.1 (MQ2_Convert_Voltage A.2 A.1) (env.doPin s.nDo).toNat
          T.1.temp T.1.humi), .delay 1000], ?_, ?_, ?_⟩
    · simp [HAL_Delay, printf, Buzzer_Off, HAL_GPIO_WritePin, emit, t2, t1]
    · simp only [buzzerCmds_append, b1, b2]
      rfl
    · simp only [countPreheat_append, p1, p2]
      simp [countPreheat]

theorem init_spec_first (s : Sys) (h0 : s.init_flag = 0) :
    Gas_Detection_System.init s =
      { s with
        trace := s.trace ++ [.printf .preheat, .delay 1000, .gpioWrite .PB0 .GPIO_PIN_SET,
          .gpioWrite .PB2 .GPIO_PIN_SET],
        init_flag := 1 } := by
  simp [Gas_Detection_System.init, h0, MQ2_Preheat_Tips, Buzzer_Off, LED_Off, HAL_GPIO_WritePin,
    HAL_Delay, printf, emit]

theorem init_spec_later (s : Sys) (h0 : s.init_flag ≠ 0) : Gas_Detection_System.init s = s := by
  simp [Gas_Detection_System.init, h0]

theorem init_nDo (s : Sys) : (Gas_Detection_System.init s).nDo = s.nDo := by
  by_cases h0 : s.init_flag = 0
  · rw [init_spec_first s h0]
  · rw [init_spec_later s h0]

/-- C7: in each phase of `Gas_Detection_System` (phase 1 is `ledOn = false`,
phase 2 is `ledOn = true`), whatever the state at the start of the phase and
whatever the ADC and the I2C bus answer, the digital state read in the phase
is the next PA1 level, and the phase issues exactly one buzzer command: the
write of `Buzzer_On` when that state is 0 and the write of `Buzzer_Off` when
it is nonzero. Hence one invocation issues, after the commands of its
first-call block, the two commands decided by the two PA1 levels it reads. -/
theorem Gas_Detection_System_buzzer (env : Env) (ledOn : Bool) (s : Sys) :
    (MQ2_Read_DO_State env
        (MQ2_Read_AO_Value env (if ledOn then LED_On s else LED_Off s)).2).1 =
      (env.doPin s.nDo).toNat ∧
    (∃ evs, (Gas_Detection_System.phase env ledOn s).trace = s.trace ++ evs ∧
      buzzerCmds evs =
        [if (env.doPin s.nDo).toNat = 0 then .GPIO_PIN_RESET else .GPIO_PIN_SET]) ∧
    (Buzzer_On s).trace = s.trace ++ [.gpioWrite .PB0 .GPIO_PIN_RESET] ∧
    (Buzzer_Off s).trace = s.trace ++ [.gpioWrite .PB0 .GPIO_PIN_SET] ∧
    Gas_Detection_System env s =
      Gas_Detection_System.phase env true
        (Gas_Detection_System.phase env false (Gas_Detection_System.init s)) ∧
    buzzerCmds (Gas_Detection_System env s).trace =
      buzzerCmds (Gas_Detection_System.init s).trace ++
        [if (env.doPin s.nDo).toNat = 0 then .GPIO_PIN_RESET else .GPIO_PIN_SET,
         if (env.doPin (s.nDo + 1)).toNat = 0 then .GPIO_PIN_RESET else .GPIO_PIN_SET] := by
  refine ⟨?_, ?_, rfl, rfl, rfl, ?_⟩
  · have q : Quiet s (MQ2_Read_AO_Value env (if ledOn = true then LED_On s else LED_Off s)).2 := by
      refine Quiet.trans ?_ (quiet_MQ2_Read_AO_Value env _)
      cases ledOn
      · exact quiet_led _ _
      · exact quiet_led _ _
    simp only [MQ2_Read_DO_State, HAL_GPIO_ReadPin, q.2.2.1]
  · obtain ⟨_, _, _, evs, ht, hb, _⟩ := phase_spec env ledOn s
    exact ⟨evs, ht, hb⟩
  · obtain ⟨_, _, n1, e1, t1, b1, _⟩ := phase_spec env false (Gas_Detection_System.init s)
    obtain ⟨_, _, _, e2, t2, b2, _⟩ := phase_spec env true
      (Gas_Detection_System.phase env false (Gas_Detection_System.init s))
    simp only [Gas_Detection_System]
    rw [t2, t1, buzzerCmds_append, buzzerCmds_append, b1, b2, n1, init_nDo]
    simp

theorem runCycles_latched (env : Env) (n : Nat) (s : Sys) (h1 : s.init_flag = 1) :
    countPreheat (runCycles env n s).trace = countPreheat s.trace ∧
    (runCycles env n s).init_flag = 1 := by
  induction n generalizing s with
  | zero => exact ⟨rfl, h1⟩
  | succ n ih =>
    have hi : Gas_Detection_System.init s = s := init_spec_later s (by omega)
    obtain ⟨_, i1, _, e1, t1, _, p1⟩ := phase_spec env false s
    obtain ⟨_, i2, _, e2, t2, _, p2⟩ := phase_spec env true (Gas_Detection_System.phase env false s)
    have hflag : (Gas_Detection_System env s).init_flag = 1 := by
      simp only [Gas_Detection_System, hi, i2, i1, h1]
    have hcount : countPreheat (Gas_Detection_System env s).trace = countPreheat s.trace := by
      simp only [Gas_Detection_System, hi, t2, t1, countPreheat_append, p1, p2, Nat.add_zero]
    obtain ⟨c, f⟩ := ih (Gas_Detection_System env s) hflag
    exact ⟨by simp only [runCycles, c, hcount], by simp only [runCycles, f]⟩

/-- C8: starting from a state with `init_flag = 0`, the first invocation of
`Gas_Detection_System` emits the preheat advisory as its very first call,
before the first phase, and emits no other; it leaves `init_flag = 1`; and
for every `n ≥ 1`, after `n` consecutive invocations the trace holds exactly
one more preheat advisory than before and `init_flag` is 1. -/
theorem Gas_Detection_System_preheat_once (env : Env) (s : Sys) (h0 : s.init_flag = 0) (n : Nat)
    (hn : 1 ≤ n) :
    (∃ rest, (Gas_Detection_System env s).trace =
        s.trace ++ [.printf .preheat, .delay 1000, .gpioWrite .PB0 .GPIO_PIN_SET,
          .gpioWrite .PB2 .GPIO_PIN_SET] ++ rest ∧
      (Gas_Detection_System.phase env true (Gas_Detection_System.phase env false
        (Gas_Detection_System.init s))).trace = (Gas_Detection_System.init s).trace ++ rest ∧
      countPreheat rest = 0) ∧
    (Gas_Detection_System env s).init_flag = 1 ∧
    countPreheat (runCycles env n s).trace = countPreheat s.trace + 1 ∧
    (runCycles env n s).init_flag = 1 := by
  obtain ⟨_, i1, _, e1, t1, _, p1⟩ := phase_spec env false (Gas_Detection_System.init s)
  obtain ⟨_, i2, _, e2, t2, _, p2⟩ := phase_spec env true
    (Gas_Detection_System.phase env false (Gas_Detection_System.init s))
  have hit : (Gas_Detection_System.init s).trace =
      s.trace ++ [.printf .preheat, .delay 1000, .gpioWrite .PB0 .GPIO_PIN_SET,
        .gpioWrite .PB2 .GPIO_PIN_SET] := by
    rw [init_spec_first s h0]
  have hif : (Gas_Detection_System.init s).init_flag = 1 := by
    rw [init_spec_first s h0]
  have htrace : (Gas_Detection_System env s).trace =
      s.trace ++ [.printf .preheat, .delay 1000, .gpioWrite .PB0 .GPIO_PIN_SET,
        .gpioWrite .PB2 .GPIO_PIN_SET] ++ (e1 ++ e2) := by
    simp only [Gas_Detection_System, t2, t1, hit, List.append_assoc]
  have hflag : (Gas_Detection_System env s).init_flag = 1 := by
    simp only [Gas_Detection_System, i2, i1, hif]
  have hrest : countPreheat (e1 ++ e2) = 0 := by
    rw [countPreheat_append, p1, p2]
  refine ⟨⟨e1 ++ e2, htrace, ?_, hrest⟩, hflag, ?_⟩
  · rw [t2, t1, List.append_assoc]
  · obtain ⟨m, rfl⟩ : ∃ m, n = m + 1 := ⟨n - 1, by omega⟩
    obtain ⟨c, f⟩ := runCycles_latched env m (Gas_Detection_System env s) hflag
    refine ⟨?_, by simp only [runCycles, f]⟩
    simp only [runCycles, c, htrace, countPreheat_append, hrest]
    simp [countPreheat]

theorem Gas_Detection_System_preheat_once_witness :
    countPreheat (runCycles Env.flaky 3 Sys.initial).trace = 1 ∧
    (runCycles Env.flaky 3 Sys.initial).init_flag = 1 := by
  have h := Gas_Detection_System_preheat_once Env.flaky Sys.initial rfl 3 (by decide)
  exact ⟨h.2.2.1, h.2.2.2⟩

/-! ## Calibration factor -/

/-- C9 as stated fails: `MQ2_Calibrate` with reference voltage 0 and ADC code
100 sets the factor to 0, with reference voltage -1 it sets a negative
factor, and with ADC code 0 it yields no factor at all. -/
theorem MQ2_Calibrate_factor_not_positive :
    (∃ s', MQ2_Calibrate Sys.initial 0 100 = some s' ∧ s'.g_scale_factor = 0 ∧
      ¬ 0 < s'.g_scale_factor) ∧
    (∃ s', MQ2_Calibrate Sys.initial (-1) 100 = some s' ∧ s'.g_scale_factor < 0) ∧
    MQ2_Calibrate Sys.initial 0 0 = none := by
  have hne : ((100 : ℕ) : ℚ) / 4095 * (33 / 10) ≠ 0 := by norm_num
  refine ⟨⟨_, by simp only [MQ2_Calibrate, if_neg hne]; rfl, ?_, ?_⟩,
    ⟨_, by simp only [MQ2_Calibrate, if_neg hne]; rfl, ?_⟩, ?_⟩
  · simp [printf, emit]
  · simp [printf, emit]
  · simp only [printf, emit]
    norm_num
  · simp [MQ2_Calibrate]

/-- C9 (as amended): the calibration factor is 9.03 > 0 initially; a call
`MQ2_Calibrate v raw` with `v > 0` and `raw` in [1, 4095] succeeds and leaves
the factor `v / (raw/4095*3.3) > 0`; and `MQ2_Read_AO_Value`,
`MQ2_Read_DO_State`, `SHT30_Read_Temp_Humi` and `Gas_Detection_System` leave
the factor unchanged (`MQ2_Convert_Voltage` returns a value only). -/
theorem calibration_factor_positive (env : Env) (s : Sys) (v : ℚ) (raw : Nat) (hv : 0 < v)
    (h1 : 1 ≤ raw) (h2 : raw ≤ 4095) :
    Sys.initial.g_scale_factor = 903 / 100 ∧ 0 < Sys.initial.g_scale_factor ∧
    (∃ s', MQ2_Calibrate s v raw = some s' ∧
      s'.g_scale_factor = v / ((raw : ℚ) / 4095 * (33 / 10)) ∧ 0 < s'.g_scale_factor) ∧
    (MQ2_Read_AO_Value env s).2.g_scale_factor = s.g_scale_factor ∧
    (MQ2_Read_DO_State env s).2.g_scale_factor = s.g_scale_factor ∧
    (SHT30_Read_Temp_Humi env s).2.g_scale_factor = s.g_scale_factor ∧
    (Gas_Detection_System env s).g_scale_factor = s.g_scale_factor := by
  have _h2 : (raw : ℚ) ≤ 4095 := by exact_mod_cast h2
  have hpos := rawVoltage_pos raw h1
  have hne : (raw : ℚ) / 4095 * (33 / 10) ≠ 0 := ne_of_gt hpos
  refine ⟨rfl, by simp only [Sys.initial]; norm_num,
    ⟨_, by simp only [MQ2_Calibrate, if_neg hne]; rfl, rfl, ?_⟩,
    (quiet_MQ2_Read_AO_Value env s).1, rfl, (quiet_SHT30 env s).1, ?_⟩
  · simp only [printf, emit]
    exact div_pos hv hpos
  · have hi : (Gas_Detection_System.init s).g_scale_factor = s.g_scale_factor := by
      by_cases h0 : s.init_flag = 0
      · rw [init_spec_first s h0]
      · rw [init_spec_later s h0]
    simp only [Gas_Detection_System, (phase_spec env true _).1, (phase_spec env false _).1, hi]

theorem calibration_factor_positive_witness :
    ∃ s', MQ2_Calibrate Sys.initial (2 / 5) 55 = some s' ∧ s'.g_scale_factor = 1092 / 121 ∧
      0 < s'.g_scale_factor := by
  obtain ⟨s', hs, hf, hp⟩ :=
    (calibration_factor_positive Env.flaky Sys.initial (2 / 5) 55 (by norm_num) (by decide)
      (by decide)).2.2.1
  refine ⟨s', hs, ?_, hp⟩
  rw [hf]
  norm_num

end Fun
